import Mathlib

/-!
Verification of the realtime client synchronization core of the support-chat
web application: the message ordering/merge logic (`sortMessages`,
`addMessage`), the WebSocket connection manager (`useWebSocket`: reconnect
timer, frame parsing, `sendJson`), the session-list synchronizer
(`ensureChatVisible`, `onWsMessage` branches of `ActiveChats`), and the REST
envelope handling (`apiCall`).  Each definition is a shallow embedding of the
corresponding TypeScript function; timestamps (`Date.getTime()`) are modelled
as integers in milliseconds.
-/

namespace ChatCore

/-- Model of JS `a.localeCompare(b)`: lexicographic string comparison
returning a negative, zero, or positive integer. -/
def localeCompare (a b : String) : Int :=
  if a < b then -1 else if a = b then 0 else 1

section MsgSort

variable {α : Type}

/-- The comparator body shared by the `sortMessages` callbacks of
`ActiveChats`, `PendingChats` and `CustomerChat`: compare `timestamp`
(`ts`, from `getTime()`), then sender priority (`pr`), then `localeCompare`
on `id` (`mid`).  Mirrors
`if (tA !== tB) return tA - tB; if (pA !== pB) return pA - pB;
return a.id.localeCompare(b.id);`. -/
def jsMsgCompare (ts : α → Int) (pr : α → Nat) (mid : α → String)
    (a b : α) : Int :=
  if ts a ≠ ts b then ts a - ts b
  else if pr a ≠ pr b then (pr a : Int) - (pr b : Int)
  else localeCompare (mid a) (mid b)

/-- The non-strict order induced by the JS comparator (`compare(a,b) <= 0`). -/
def msgLe (ts : α → Int) (pr : α → Nat) (mid : α → String) (a b : α) : Bool :=
  decide (jsMsgCompare ts pr mid a b ≤ 0)

/-- Stable insertion: `x` is placed after every element `y` with `le y x`. -/
def insertSorted (le : α → α → Bool) (x : α) : List α → List α
  | [] => [x]
  | y :: ys => if le y x then y :: insertSorted le x ys else x :: y :: ys

/-- Model of JS `Array.prototype.sort` with a consistent comparator: the
result is a stable permutation of the input, ordered by the comparator
(ECMA-262 requires exactly this); realized here by insertion sort. -/
def jsStableSort (le : α → α → Bool) (l : List α) : List α :=
  l.foldl (fun acc x => insertSorted le x acc) []

/-- The ordering the spec states for Conversation Timelines: `createdAt`
ascending, then sender-class priority, then lexical `id`. -/
def specLe (ts : α → Int) (pr : α → Nat) (mid : α → String) (a b : α) : Prop :=
  ts a < ts b ∨
    (ts a = ts b ∧ (pr a < pr b ∨ (pr a = pr b ∧ mid a ≤ mid b)))

instance (ts : α → Int) (pr : α → Nat) (mid : α → String) :
    DecidableRel (specLe ts pr mid) := fun _ _ => by
  unfold specLe; infer_instance

end MsgSort

namespace ActiveChats

/-- `ChatMessage['sender']` of `ActiveChats`/`PendingChats`:
`'user' | 'agent' | 'ai'` (customer, human agent, automated). -/
inductive Sender : Type
  | user
  | agent
  | ai
deriving DecidableEq

/-- `Attachment` of `ActiveChats`. -/
structure Attachment where
  url : String
  name : String
  size : Option Nat
  mime : Option String
  is_image : Option Bool
deriving DecidableEq

/-- `ChatMessage` of `ActiveChats` (timestamp = `Date.getTime()` in ms). -/
structure ChatMessage where
  id : String
  sender : Sender
  content : String
  timestamp : Int
  attachments : Option (List Attachment)
deriving DecidableEq

/-- The `senderPriority` record literal `{ user: 0, agent: 1, ai: 2 }`
in `ActiveChats.sortMessages` (the `?? 99` fallback is unreachable:
the record is total on the sender union type). -/
def senderPriority : Sender → Nat
  | .user => 0
  | .agent => 1
  | .ai => 2

/-- The Boolean order induced by the `ActiveChats` comparator. -/
def leB : ChatMessage → ChatMessage → Bool :=
  msgLe (·.timestamp) (fun m => senderPriority m.sender) (·.id)

/-- `sortMessages` of `ActiveChats`: `[...list].sort(comparator)`. -/
def sortMessages (list : List ChatMessage) : List ChatMessage :=
  jsStableSort leB list

/-- The spec's total order on `ActiveChats` message records: `createdAt`
ascending, then customer before human-agent before automated, then
lexical `id`. -/
def specOrder (a b : ChatMessage) : Prop :=
  specLe (·.timestamp) (fun m => senderPriority m.sender) (·.id) a b

end ActiveChats

namespace CustomerChat

/-- `Message['sender']` of `CustomerChat`: `'user' | 'ai'` (the customer
screen does not distinguish automated from human-agent senders). -/
inductive Sender : Type
  | user
  | ai
deriving DecidableEq

/-- `Message` of `CustomerChat`. -/
structure Message where
  id : String
  sender : Sender
  content : String
  timestamp : Int
  attachments : Option (List String)
deriving DecidableEq

/-- The `senderPriority` record literal `{ user: 0, ai: 1 }` in
`CustomerChat.sortMessages`. -/
def senderPriority : Sender → Nat
  | .user => 0
  | .ai => 1

/-- The Boolean order induced by the `CustomerChat` comparator. -/
def leB : Message → Message → Bool :=
  msgLe (·.timestamp) (fun m => senderPriority m.sender) (·.id)

/-- `sortMessages` of `CustomerChat`. -/
def sortMessages (list : List Message) : List Message :=
  jsStableSort leB list

/-- `addMessage` of `CustomerChat`:
`if (prev.some((x) => x.id === m.id)) return prev;
return sortMessages([...prev, m]);`. -/
def addMessage (m : Message) (prev : List Message) : List Message :=
  if prev.any (fun x => x.id == m.id) then prev
  else sortMessages (prev ++ [m])

end CustomerChat

namespace UseWebSocket

/-- The asynchronous events that drive one `useWebSocket` effect instance:
the channel closing on its own (error or server-initiated), the browser
delivering a queued close event to `ws.onclose`, the pending
`setTimeout(connect, reconnectMs)` timer firing, and the effect cleanup
(explicit `close()` / teardown). -/
inductive Event : Type
  | serverClose
  | deliverClose
  | timerFire
  | teardown
deriving DecidableEq

/-- State of one `useWebSocket` instance.  `pending` is the list of live
timers as `(id, delay)` pairs (`setTimeout` returns a fresh id,
`clearTimeout id` cancels exactly that id); `refTimer` is the id stored in
`reconnectTimerRef.current`; `socketAlive` means a socket exists whose
close event has not yet been queued; `closeQueued` means a close event
awaits delivery to `ws.onclose`; `scheduleCount` counts
`setTimeout(connect, reconnectMs)` calls; `connectCount` counts
`new WebSocket(...)` constructions. -/
structure State where
  socketAlive : Bool
  closeQueued : Bool
  pending : List (Nat × Nat)
  refTimer : Option Nat
  nextId : Nat
  toreDown : Bool
  scheduleCount : Nat
  connectCount : Nat
deriving DecidableEq

/-- `connect`: `const token = localStorage.getItem('token');
if (!token) return;` — without a stored token nothing happens (no channel,
no timer, no error); with one, a `WebSocket` is constructed. -/
def connect (hasToken : Bool) (s : State) : State :=
  if hasToken then
    { s with socketAlive := true, connectCount := s.connectCount + 1 }
  else s

/-- State of the hook before its effect runs. -/
def emptyState : State :=
  ⟨false, false, [], none, 0, false, 0, 0⟩

/-- The effect body: it calls `connect()` once. -/
def initState (hasToken : Bool) : State :=
  connect hasToken emptyState

/-- The `ws.onclose` handler: clear the timer whose id is stored in
`reconnectTimerRef` (if any), then store a fresh
`setTimeout(connect, reconnectMs)` timer.  The handler's
`if (!enabled) return` guard is omitted: the effect installs handlers only
when `enabled` is `true`, and the closure captures that value. -/
def oncloseStep (rm : Nat) (s : State) : State :=
  let cleared := match s.refTimer with
    | some i => s.pending.filter (fun p => p.1 ≠ i)
    | none => s.pending
  { s with
    pending := cleared ++ [(s.nextId, rm)]
    refTimer := some s.nextId
    nextId := s.nextId + 1
    closeQueued := false
    scheduleCount := s.scheduleCount + 1 }

/-- One transition of the connection-manager model.  An event whose
precondition fails (no live socket, no queued close event, no pending
timer) leaves the state unchanged.  Teardown mirrors the effect cleanup:
`clearTimeout` on the ref'd timer, then `wsRef.current?.close()` (closing
a live socket queues its close event — the handler stays attached). -/
def step (hasToken : Bool) (rm : Nat) (e : Event) (s : State) : State :=
  match e with
  | .serverClose =>
    if s.socketAlive then
      { s with socketAlive := false, closeQueued := true }
    else s
  | .deliverClose =>
    if s.closeQueued then oncloseStep rm s else s
  | .timerFire =>
    match s.pending with
    | [] => s
    | (i, _) :: _ =>
      connect hasToken { s with pending := s.pending.filter (fun p => p.1 ≠ i) }
  | .teardown =>
    let cleared := match s.refTimer with
      | some i => s.pending.filter (fun p => p.1 ≠ i)
      | none => s.pending
    { s with
      pending := cleared
      socketAlive := false
      closeQueued := s.closeQueued || s.socketAlive
      toreDown := true }

/-- Run a sequence of events. -/
def runEvents (hasToken : Bool) (rm : Nat) (evs : List Event) (s : State) :
    State :=
  evs.foldl (fun s e => step hasToken rm e s) s

/-- States reachable by one effect instance that connected with a token. -/
inductive Reach (rm : Nat) : State → Prop where
  | init : Reach rm (initState true)
  | next (e : Event) (s : State) : Reach rm s → Reach rm (step true rm e s)

/-- The `reconnectMs = 3000` default of `useWebSocket`. -/
def defaultReconnectMs : Nat := 3000

/-- Invariant of reachable states: at most one pending timer, and it is the
ref'd one; a queued close event implies the socket is gone; a pending
reconnect timer implies the socket is gone and nothing is queued. -/
def Inv (rm : Nat) (s : State) : Prop :=
  (s.pending = [] ∨ ∃ i, s.pending = [(i, rm)] ∧ s.refTimer = some i) ∧
  (s.closeQueued = true → s.socketAlive = false) ∧
  (s.pending ≠ [] → s.socketAlive = false ∧ s.closeQueued = false)

/-- A fully quiescent (torn down) state. -/
def Dead (s : State) : Prop :=
  s.socketAlive = false ∧ s.closeQueued = false ∧ s.pending = [] ∧
    s.toreDown = true

/-- A hook instance that never connected: no socket, nothing queued, no
timers, and no connection was ever attempted or scheduled. -/
def Dormant (s : State) : Prop :=
  s.socketAlive = false ∧ s.closeQueued = false ∧ s.pending = [] ∧
    s.connectCount = 0 ∧ s.scheduleCount = 0

/-- `readyState` values of a `WebSocket`. -/
inductive ReadyState : Type
  | CONNECTING
  | OPEN
  | CLOSING
  | CLOSED
deriving DecidableEq

/-- A socket as `sendJson` observes it: its `readyState` and the frames
handed to `ws.send`. -/
structure Socket where
  readyState : ReadyState
  sent : List String
deriving DecidableEq

/-- `sendJson`: `if (!ws || ws.readyState !== WebSocket.OPEN) return false;
ws.send(JSON.stringify(payload)); return true;`. -/
def sendJson (ws : Option Socket) (payload : String) : Bool × Option Socket :=
  match ws with
  | none => (false, none)
  | some w =>
    if w.readyState ≠ ReadyState.OPEN then (false, some w)
    else (true, some { w with sent := w.sent ++ [payload] })

/-- A sequence of `sendJson` calls; returns the final socket and the
payloads whose call returned `true`. -/
def runSends : Option Socket → List String → Option Socket × List String
  | ws, [] => (ws, [])
  | ws, p :: ps =>
    let r := sendJson ws p
    let rest := runSends r.2 ps
    (rest.1, (if r.1 = true then [p] else []) ++ rest.2)

/-- The `ws.onmessage` handler: `try { onMessageRef.current(JSON.parse(
event.data)); } catch { }` — `parsed` is the outcome of `JSON.parse`
(`none` when the parse threw), `delivered` the list of payloads handed to
the application handler so far.  This is the handler's entire observable
effect. -/
def onmessageStep {α : Type} (parsed : Option α) (delivered : List α) :
    List α :=
  match parsed with
  | some p => delivered ++ [p]
  | none => delivered

end UseWebSocket

/-- Concrete `ActiveChats` record used to instantiate C1. -/
def wMsgA : ActiveChats.ChatMessage :=
  ⟨"a", .user, "hello", 10, none⟩

/-- Concrete `ActiveChats` record used to instantiate C1. -/
def wMsgB : ActiveChats.ChatMessage :=
  ⟨"b", .ai, "auto-reply", 10, none⟩

/-- Concrete `ActiveChats` record used to instantiate C1. -/
def wMsgC : ActiveChats.ChatMessage :=
  ⟨"c", .agent, "agent-reply", 10, none⟩

/-- Concrete `ActiveChats` record used to instantiate C1. -/
def wMsgD : ActiveChats.ChatMessage :=
  ⟨"d", .ai, "early", 5, none⟩

namespace ActiveChats

/-- `ChatSession['status']` of `ActiveChats`: `'ai' | 'agent'` — the
handler mode of a visible active session. -/
inductive HandlerStatus : Type
  | ai
  | agent
deriving DecidableEq

/-- `ChatSession` of `ActiveChats`. -/
structure ChatSession where
  id : String
  customer_id : String
  customer_name : String
  category : String
  last_message : String
  timestamp : Option String
  status : HandlerStatus
  unread : Int
deriving DecidableEq

/-- The component state that the `ActiveChats` WebSocket handlers read and
write: the session list (mirrored by `chatsRef`), the selection, the open
timeline, `loadingChats` (mirrored by `loadingChatsRef`),
`lastChatsRefreshRef`, and a count of `fetchChats()` resync calls. -/
structure State where
  chats : List ChatSession
  selectedChat : Option ChatSession
  messages : List ChatMessage
  showSummary : Bool
  loadingChats : Bool
  lastChatsRefresh : Int
  fetchCount : Nat
deriving DecidableEq

/-- `ensureChatVisible(sessionId)` at time `now = Date.now()`:
return early when the id is missing, a list fetch is in flight, the session
is already visible, or the last forced refresh was less than 500 ms ago;
otherwise record the refresh time and call `fetchChats()`. -/
def ensureChatVisible (now : Int) (sessionId : Option String) (s : State) :
    State :=
  match sessionId with
  | none => s
  | some sid =>
    if s.loadingChats then s
    else if s.chats.any (fun c => c.id == sid) then s
    else if now - s.lastChatsRefresh < 500 then s
    else { s with lastChatsRefresh := now, fetchCount := s.fetchCount + 1 }

/-- The `unread_count_updated` branch of `ActiveChats.onWsMessage`:
`if (!sessionId) return; ensureChatVisible(sessionId);` then update
`unread` in place (`unread ?? c.unread`). -/
def onUnreadCountUpdated (now : Int) (sessionId : Option String)
    (unread : Option Int) (s : State) : State :=
  match sessionId with
  | none => s
  | some sid =>
    let s1 := ensureChatVisible now (some sid) s
    { s1 with chats := s1.chats.map (fun c =>
        if c.id == sid then { c with unread := unread.getD c.unread } else c) }

/-- The `session_status_changed` branch of `ActiveChats.onWsMessage`:
a status other than `'active'` removes the session from the list (and
clears the selection if it was selected); status `'active'` keeps it,
running `ensureChatVisible` and, when `handlerType` is present, updating
the handler field in place (`handlerType === 'agent' ? 'agent' : 'ai'`). -/
def onSessionStatusChanged (now : Int) (sessionId : Option String)
    (status : Option String) (handlerType : Option String) (s : State) :
    State :=
  match sessionId with
  | none => s
  | some sid =>
    if status ≠ some "active" then
      let s1 := { s with chats := s.chats.filter (fun c => c.id ≠ sid) }
      if s.selectedChat.any (fun c => c.id == sid) then
        { s1 with selectedChat := none, messages := [], showSummary := false }
      else s1
    else
      let s1 := ensureChatVisible now (some sid) s
      match handlerType with
      | none => s1
      | some h =>
        { s1 with chats := s1.chats.map (fun c =>
            if c.id == sid then
              { c with status := if h == "agent" then .agent else .ai }
            else c) }

/-- A burst of `unread_count_updated` events for session `sid`, given as
`(arrival time, unread_count)` pairs. -/
def runUnreadEvents (sid : String) :
    List (Int × Option Int) → State → State
  | [], s => s
  | (t, u) :: evs, s =>
    runUnreadEvents sid evs (onUnreadCountUpdated t (some sid) u s)

end ActiveChats

namespace CustomerChat

/-- `ApiMessage` of `CustomerChat` (wire shape of a message record;
`created_at` is the parsed `Date` timestamp when the field is present). -/
structure ApiMessage where
  id : String
  sender_type : String
  content : String
  created_at : Option Int
  attachments : Option (List String)
deriving DecidableEq

/-- `mapApiMessage`: the customer screen does not distinguish automated
from human-agent senders (`sender_type === 'user' ? 'user' : 'ai'`);
a missing `created_at` becomes `new Date()` (= `now`). -/
def mapApiMessage (now : Int) (m : ApiMessage) : Message :=
  { id := m.id
    sender := if m.sender_type == "user" then .user else .ai
    content := m.content
    timestamp := m.created_at.getD now
    attachments := m.attachments }

/-- The `CustomerChat` component state the WebSocket and send handlers
touch. -/
structure State where
  messages : List Message
  sessionId : Option String
  chatEnded : Bool
  logoutCountdown : Option Int
deriving DecidableEq

/-- The POST `/api/chats/messages` request body issued by `handleSend`. -/
structure SendRequest where
  session_id : String
  content : String
  attachments : Option (List String)
deriving DecidableEq

/-- `handleSend`: `if (!sessionId || !content.trim() || chatEnded) return;`
— otherwise a POST request is issued to the server (the asynchronous
response is a separate `addMessage` event, not modelled here). -/
def handleSend (content : String) (attachments : Option (List String))
    (s : State) : State × Option SendRequest :=
  match s.sessionId with
  | none => (s, none)
  | some sid =>
    if content.trim = "" then (s, none)
    else if s.chatEnded then (s, none)
    else (s, some ⟨sid, content, attachments⟩)

/-- Push payloads the `CustomerChat.onWsMessage` handler distinguishes:
`new_message` with a `data.message`, `session_completed` with its optional
closing text, and anything else (including a missing `type`). -/
inductive WsPayload : Type
  | newMessage (message : ApiMessage)
  | sessionCompleted (message : Option String)
  | other
deriving DecidableEq

/-- The closing text of a `session_completed` push:
`payload.data?.message || '상담이 완료되었습니다.'` (an absent or empty —
falsy — message falls back to the default). -/
def closingText (pm : Option String) : String :=
  match pm with
  | some t => if t == "" then "상담이 완료되었습니다." else t
  | none => "상담이 완료되었습니다."

/-- `CustomerChat.onWsMessage`: a `new_message` is merged through
`addMessage`; `session_completed` resolves the closing text, sets
`chatEnded`, starts the 10-second logout countdown and appends the
synthetic `system-${Date.now()}` message; other payloads are ignored. -/
def onWsMessage (now : Int) (p : WsPayload) (s : State) : State :=
  match p with
  | .newMessage m =>
    { s with messages := addMessage (mapApiMessage now m) s.messages }
  | .sessionCompleted pm =>
    { s with
      chatEnded := true
      logoutCountdown := some 10
      messages := addMessage
        ⟨"system-" ++ toString now, .ai, closingText pm, now, none⟩
        s.messages }
  | .other => s

/-- An interleaving of subsequent push payloads and send attempts. -/
inductive Op : Type
  | ws (now : Int) (p : WsPayload)
  | send (content : String) (attachments : Option (List String))

/-- Run the operations, collecting every request actually issued to the
server. -/
def runOps : List Op → State → State × List SendRequest
  | [], s => (s, [])
  | .ws now p :: ops, s => runOps ops (onWsMessage now p s)
  | .send c a :: ops, s =>
    let r := handleSend c a s
    let rest := runOps ops r.1
    (rest.1, (match r.2 with | some q => [q] | none => []) ++ rest.2)

end CustomerChat

namespace Api

/-- `ApiEnvelope<T>` from `utils/api.ts`. -/
structure ApiEnvelope (T : Type) where
  success : Bool
  message : Option String
  data : Option T
deriving DecidableEq

/-- `ApiError` (name and HTTP status attached to every rejection). -/
structure ApiError where
  message : String
  status : Nat
deriving DecidableEq

/-- One HTTP response as `apiCall` observes it after `fetch` resolves:
the status code and the outcome of `res.json()` (`none` = the body is not
parseable as JSON). -/
structure Response (T : Type) where
  status : Nat
  body : Option (ApiEnvelope T)
deriving DecidableEq

/-- The browser `localStorage` slice `apiCall` touches. -/
structure Store where
  token : Option String
deriving DecidableEq

/-- `apiCall` from the `res.json()` step on: an unparseable body throws
`ApiError('서버 응답을 해석할 수 없습니다.')`; then HTTP 401 removes the
stored token; then `!payload.success` throws
`ApiError(payload.message || 'API 요청 실패')`; otherwise the envelope is
returned.  The result is the settled promise plus the updated storage. -/
def apiCall {T : Type} (res : Response T) (store : Store) :
    Except ApiError (ApiEnvelope T) × Store :=
  match res.body with
  | none => (.error ⟨"서버 응답을 해석할 수 없습니다.", res.status⟩, store)
  | some payload =>
    let store1 := if res.status == 401 then { store with token := none }
      else store
    if payload.success = false then
      let msg := match payload.message with
        | some m => if m == "" then "API 요청 실패" else m
        | none => "API 요청 실패"
      (.error ⟨msg, res.status⟩, store1)
    else (.ok payload, store1)

end Api

/-- Concrete 401 response with an unparseable body (C10 counterexample
input). -/
def c10Resp : Api.Response Nat :=
  ⟨401, none⟩

/-- Concrete storage holding a bearer token (C10 counterexample input). -/
def c10Store : Api.Store :=
  ⟨some "tok"⟩

/-- Concrete parsed 401 failure envelope (C10 witness input). -/
def w10Resp : Api.Response Nat :=
  ⟨401, some ⟨false, some "expired", none⟩⟩

/-- Concrete `ActiveChats` session (C5 witness input). -/
def w5Session : ActiveChats.ChatSession :=
  ⟨"s1", "cust1", "Kim", "환불 요청", "hello", none, .ai, 0⟩

/-- Concrete `ActiveChats` state holding `w5Session` (C4/C5 witness
input). -/
def w5State : ActiveChats.State :=
  ⟨[w5Session], some w5Session, [], false, false, 0, 0⟩

/-- Concrete `CustomerChat` state before a `session_completed` push (C6
witness input). -/
def w6State : CustomerChat.State :=
  ⟨[], some "sess-1", false, none⟩

/-- Concrete parsed 200 success envelope (C10 witness input). -/
def w10OkResp : Api.Response Nat :=
  ⟨200, some ⟨true, none, some 5⟩⟩

/-- Concrete `ActiveChats` state whose last forced refresh is old enough
for one resync (C4 witness input). -/
def w4State : ActiveChats.State :=
  ⟨[], none, [], false, false, -600, 0⟩

/-- Concrete closed socket (C8 witness input). -/
def w8Closed : UseWebSocket.Socket :=
  ⟨.CLOSED, []⟩

/-- Concrete open socket (C8 witness input). -/
def w8Open : UseWebSocket.Socket :=
  ⟨.OPEN, []⟩

/-- Connection-manager state after the initial connect and a server-side
channel close (C3 witness input). -/
def w3Closed : UseWebSocket.State :=
  UseWebSocket.step true 3000 .serverClose (UseWebSocket.initState true)

/-- Connection-manager state once the close event has been delivered — one
reconnect timer is pending (C3 witness input). -/
def w3Timer : UseWebSocket.State :=
  UseWebSocket.step true 3000 .deliverClose w3Closed

section MsgSortLemmas

variable {α : Type}

theorem localeCompare_nonpos (a b : String) :
    localeCompare a b ≤ 0 ↔ a ≤ b := by
  unfold localeCompare
  split
  · next h => simp [le_of_lt h]
  · split
    · next h => simp [le_of_eq h]
    · next h1 h2 =>
      simp only [le_iff_lt_or_eq, h1, h2, or_self, iff_false]
      decide

theorem msgLe_iff (ts : α → Int) (pr : α → Nat) (mid : α → String)
    (a b : α) : msgLe ts pr mid a b = true ↔ specLe ts pr mid a b := by
  unfold msgLe jsMsgCompare specLe
  rw [decide_eq_true_iff]
  split
  · next h1 =>
    constructor
    · intro h; exact Or.inl (by omega)
    · rintro (h | ⟨he, _⟩)
      · omega
      · exact absurd he h1
  · next h1 =>
    rw [not_ne_iff] at h1
    split
    · next h2 =>
      constructor
      · intro h; exact Or.inr ⟨h1, Or.inl (by omega)⟩
      · rintro (h | ⟨_, h | ⟨hpe, _⟩⟩)
        · omega
        · omega
        · exact absurd hpe h2
    · next h2 =>
      rw [not_ne_iff] at h2
      rw [localeCompare_nonpos]
      constructor
      · intro h; exact Or.inr ⟨h1, Or.inr ⟨h2, h⟩⟩
      · rintro (h | ⟨_, h | ⟨_, h⟩⟩)
        · omega
        · omega
        · exact h

theorem specLe_total (ts : α → Int) (pr : α → Nat) (mid : α → String)
    (a b : α) : specLe ts pr mid a b ∨ specLe ts pr mid b a := by
  unfold specLe
  rcases lt_trichotomy (ts a) (ts b) with h | h | h
  · exact Or.inl (Or.inl h)
  · rcases lt_trichotomy (pr a) (pr b) with h2 | h2 | h2
    · exact Or.inl (Or.inr ⟨h, Or.inl h2⟩)
    · rcases le_total (mid a) (mid b) with h3 | h3
      · exact Or.inl (Or.inr ⟨h, Or.inr ⟨h2, h3⟩⟩)
      · exact Or.inr (Or.inr ⟨h.symm, Or.inr ⟨h2.symm, h3⟩⟩)
    · exact Or.inr (Or.inr ⟨h.symm, Or.inl h2⟩)
  · exact Or.inr (Or.inl h)

theorem specLe_trans (ts : α → Int) (pr : α → Nat) (mid : α → String)
    (a b c : α) (hab : specLe ts pr mid a b) (hbc : specLe ts pr mid b c) :
    specLe ts pr mid a c := by
  unfold specLe at *
  rcases hab with h1 | ⟨e1, h1 | ⟨f1, g1⟩⟩ <;>
    rcases hbc with h2 | ⟨e2, h2 | ⟨f2, g2⟩⟩
  · exact Or.inl (by omega)
  · exact Or.inl (by omega)
  · exact Or.inl (by omega)
  · exact Or.inl (by omega)
  · exact Or.inr ⟨by omega, Or.inl (by omega)⟩
  · exact Or.inr ⟨by omega, Or.inl (by omega)⟩
  · exact Or.inl (by omega)
  · exact Or.inr ⟨by omega, Or.inl (by omega)⟩
  · exact Or.inr ⟨by omega, Or.inr ⟨by omega, le_trans g1 g2⟩⟩

theorem specLe_antisymm_key (ts : α → Int) (pr : α → Nat) (mid : α → String)
    (a b : α) (hab : specLe ts pr mid a b) (hba : specLe ts pr mid b a) :
    ts a = ts b ∧ pr a = pr b ∧ mid a = mid b := by
  unfold specLe at *
  rcases hab with h1 | ⟨e1, h1 | ⟨f1, g1⟩⟩ <;>
    rcases hba with h2 | ⟨e2, h2 | ⟨f2, g2⟩⟩ <;>
    first
    | omega
    | exact ⟨by omega, by omega, le_antisymm g1 g2⟩

theorem insertSorted_perm (le : α → α → Bool) (x : α) (l : List α) :
    (insertSorted le x l).Perm (x :: l) := by
  induction l with
  | nil => exact List.Perm.refl _
  | cons y ys ih =>
    unfold insertSorted
    split
    · exact ((ih.cons y).trans (List.Perm.swap x y ys))
    · exact List.Perm.refl _

theorem mem_insertSorted (le : α → α → Bool) (x z : α) (l : List α)
    (h : z ∈ insertSorted le x l) : z = x ∨ z ∈ l :=
  List.mem_cons.mp ((insertSorted_perm le x l).mem_iff.mp h)

theorem insertSorted_pairwise (le : α → α → Bool)
    (htot : ∀ a b, le a b = true ∨ le b a = true)
    (htrans : ∀ a b c, le a b = true → le b c = true → le a c = true)
    (x : α) (l : List α) (hl : l.Pairwise (le · · = true)) :
    (insertSorted le x l).Pairwise (le · · = true) := by
  induction l with
  | nil => simp [insertSorted]
  | cons y ys ih =>
    rw [List.pairwise_cons] at hl
    unfold insertSorted
    split
    · next hyx =>
      rw [List.pairwise_cons]
      refine ⟨fun z hz => ?_, ih hl.2⟩
      rcases mem_insertSorted le x z ys hz with rfl | hz'
      · exact hyx
      · exact hl.1 z hz'
    · next hyx =>
      have hxy : le x y = true := by
        rcases htot x y with h | h
        · exact h
        · exact absurd h hyx
      rw [List.pairwise_cons]
      refine ⟨fun z hz => ?_, List.pairwise_cons.mpr hl⟩
      rcases List.mem_cons.mp hz with rfl | hz'
      · exact hxy
      · exact htrans x y z hxy (hl.1 z hz')

theorem foldl_insertSorted_perm (le : α → α → Bool) (l acc : List α) :
    (l.foldl (fun acc x => insertSorted le x acc) acc).Perm (acc ++ l) := by
  induction l generalizing acc with
  | nil => simp
  | cons x xs ih =>
    simp only [List.foldl_cons]
    refine (ih (insertSorted le x acc)).trans ?_
    refine (List.Perm.append_right xs (insertSorted_perm le x acc)).trans ?_
    exact List.perm_middle.symm

theorem jsStableSort_perm (le : α → α → Bool) (l : List α) :
    (jsStableSort le l).Perm l := by
  have h := foldl_insertSorted_perm le l []
  simpa [jsStableSort] using h

theorem foldl_insertSorted_pairwise (le : α → α → Bool)
    (htot : ∀ a b, le a b = true ∨ le b a = true)
    (htrans : ∀ a b c, le a b = true → le b c = true → le a c = true)
    (l acc : List α) (hacc : acc.Pairwise (le · · = true)) :
    (l.foldl (fun acc x => insertSorted le x acc) acc).Pairwise
      (le · · = true) := by
  induction l generalizing acc with
  | nil => exact hacc
  | cons x xs ih =>
    exact ih (insertSorted le x acc)
      (insertSorted_pairwise le htot htrans x acc hacc)

theorem jsStableSort_pairwise (le : α → α → Bool)
    (htot : ∀ a b, le a b = true ∨ le b a = true)
    (htrans : ∀ a b c, le a b = true → le b c = true → le a c = true)
    (l : List α) :
    (jsStableSort le l).Pairwise (le · · = true) :=
  foldl_insertSorted_pairwise le htot htrans l [] List.Pairwise.nil

theorem sorted_perm_eq (le : α → α → Bool) (idf : α → String)
    (hanti : ∀ a b, le a b = true → le b a = true → idf a = idf b) :
    ∀ (l₁ l₂ : List α), l₁.Perm l₂ → l₁.Pairwise (le · · = true) →
      l₂.Pairwise (le · · = true) →
      l₁.Pairwise (fun a b => idf a ≠ idf b) → l₁ = l₂ := by
  intro l₁
  induction l₁ with
  | nil =>
    intro l₂ hp _ _ _
    exact (hp.symm.eq_nil).symm
  | cons a t₁ ih =>
    intro l₂ hp hs₁ hs₂ hnd
    cases l₂ with
    | nil => exact absurd hp.eq_nil (by simp)
    | cons b t₂ =>
      by_cases hab : a = b
      · subst hab
        rw [List.pairwise_cons] at hs₁ hs₂ hnd
        rw [ih t₂ hp.cons_inv hs₁.2 hs₂.2 hnd.2]
      · have ha2 : a ∈ t₂ := by
          rcases List.mem_cons.mp
              (hp.mem_iff.mp (List.mem_cons_self a t₁)) with h | h
          · exact absurd h hab
          · exact h
        have hb1 : b ∈ t₁ := by
          rcases List.mem_cons.mp
              (hp.symm.mem_iff.mp (List.mem_cons_self b t₂)) with h | h
          · exact absurd h.symm hab
          · exact h
        rw [List.pairwise_cons] at hs₁ hs₂ hnd
        have hle1 : le a b = true := hs₁.1 b hb1
        have hle2 : le b a = true := hs₂.1 a ha2
        exact absurd (hanti a b hle1 hle2) (hnd.1 b hb1)

end MsgSortLemmas

theorem ac_leB_iff (a b : ActiveChats.ChatMessage) :
    ActiveChats.leB a b = true ↔ ActiveChats.specOrder a b :=
  msgLe_iff _ _ _ a b

theorem ac_leB_total (a b : ActiveChats.ChatMessage) :
    ActiveChats.leB a b = true ∨ ActiveChats.leB b a = true := by
  rw [ac_leB_iff, ac_leB_iff]
  exact specLe_total _ _ _ a b

theorem ac_leB_trans (a b c : ActiveChats.ChatMessage)
    (hab : ActiveChats.leB a b = true) (hbc : ActiveChats.leB b c = true) :
    ActiveChats.leB a c = true := by
  rw [ac_leB_iff] at *
  exact specLe_trans _ _ _ a b c hab hbc

theorem ac_leB_anti_id (a b : ActiveChats.ChatMessage)
    (hab : ActiveChats.leB a b = true) (hba : ActiveChats.leB b a = true) :
    a.id = b.id := by
  rw [ac_leB_iff] at hab hba
  exact (specLe_antisymm_key _ _ _ a b hab hba).2.2

theorem ac_sortMessages_perm (l : List ActiveChats.ChatMessage) :
    (ActiveChats.sortMessages l).Perm l :=
  jsStableSort_perm ActiveChats.leB l

theorem ac_sortMessages_pairwise (l : List ActiveChats.ChatMessage) :
    (ActiveChats.sortMessages l).Pairwise ActiveChats.specOrder := by
  have h := jsStableSort_pairwise ActiveChats.leB ac_leB_total
    (fun a b c => ac_leB_trans a b c) l
  exact h.imp (fun hab => (ac_leB_iff _ _).mp hab)

/-- C1: the `ActiveChats` merge/sort operation orders message records by
`createdAt` (timestamp) ascending, breaking timestamp ties by sender-class
priority (customer `user` before human-agent `agent` before automated `ai`)
and remaining ties by lexical `id`; the result is a permutation of the
input, and — provided ids are pairwise distinct, the documented invariant —
it is the same for any insertion order of the records. -/
theorem sortMessages_ordering_invariant
    (l l' : List ActiveChats.ChatMessage) (hperm : l.Perm l')
    (hid : l.Pairwise (fun a b => a.id ≠ b.id)) :
    (ActiveChats.sortMessages l).Perm l ∧
    (ActiveChats.sortMessages l).Pairwise ActiveChats.specOrder ∧
    ActiveChats.sortMessages l = ActiveChats.sortMessages l' := by
  refine ⟨ac_sortMessages_perm l, ac_sortMessages_pairwise l, ?_⟩
  apply sorted_perm_eq ActiveChats.leB (·.id) ac_leB_anti_id
  · exact (ac_sortMessages_perm l).trans
      (hperm.trans (ac_sortMessages_perm l').symm)
  · exact jsStableSort_pairwise _ ac_leB_total (fun a b c => ac_leB_trans a b c) l
  · exact jsStableSort_pairwise _ ac_leB_total (fun a b c => ac_leB_trans a b c) l'
  · exact ((ac_sortMessages_perm l).pairwise_iff
      (fun h h2 => h h2.symm)).mpr hid

/-- Witness for C1 at concrete records: three records share timestamp 10
(customer, automated, human-agent) and one has timestamp 5; the sorted
result is invariant under reversing the insertion order. -/
theorem sortMessages_ordering_invariant_witness :
    (ActiveChats.sortMessages [wMsgA, wMsgB, wMsgC, wMsgD]).Perm
        [wMsgA, wMsgB, wMsgC, wMsgD] ∧
    (ActiveChats.sortMessages [wMsgA, wMsgB, wMsgC, wMsgD]).Pairwise
        ActiveChats.specOrder ∧
    ActiveChats.sortMessages [wMsgA, wMsgB, wMsgC, wMsgD] =
        ActiveChats.sortMessages [wMsgD, wMsgC, wMsgB, wMsgA] :=
  sortMessages_ordering_invariant [wMsgA, wMsgB, wMsgC, wMsgD]
    [wMsgD, wMsgC, wMsgB, wMsgA] (by decide) (by decide)

theorem cc_sortMessages_perm (l : List CustomerChat.Message) :
    (CustomerChat.sortMessages l).Perm l :=
  jsStableSort_perm CustomerChat.leB l

/-- C2: ingesting the same `new_message` record twice through
`CustomerChat.addMessage` yields exactly the same timeline as ingesting it
once — a record whose `id` is already present is rejected, so duplicate
arrivals collapse to one record. -/
theorem addMessage_idempotent (m : CustomerChat.Message)
    (prev : List CustomerChat.Message) :
    CustomerChat.addMessage m (CustomerChat.addMessage m prev) =
      CustomerChat.addMessage m prev := by
  by_cases h : prev.any (fun x => x.id == m.id) = true
  · have e : CustomerChat.addMessage m prev = prev := by
      simp only [CustomerChat.addMessage, h, if_true]
    rw [e]
    exact e
  · have e : CustomerChat.addMessage m prev =
        CustomerChat.sortMessages (prev ++ [m]) := by
      simp only [CustomerChat.addMessage, h, Bool.false_eq_true, if_false]
    have hm : m ∈ CustomerChat.sortMessages (prev ++ [m]) :=
      (cc_sortMessages_perm (prev ++ [m])).mem_iff.mpr
        (List.mem_append_right prev (List.mem_singleton.mpr rfl))
    have hany : (CustomerChat.sortMessages (prev ++ [m])).any
        (fun x => x.id == m.id) = true :=
      List.any_eq_true.mpr ⟨m, hm, beq_self_eq_true m.id⟩
    rw [e]
    simp only [CustomerChat.addMessage, hany, if_true]

/-- C7 counterexample: at the concrete malformed frame (a parse failure)
the `onmessage` handler leaves its entire observable state unchanged —
nothing is recorded anywhere, so no soft failure is "counted for
observability"; the `catch` block ignores the error completely. -/
theorem onmessage_malformed_not_counted :
    UseWebSocket.onmessageStep (none : Option Nat) [] = [] :=
  rfl

/-- C7 (amended): a frame that fails to parse is silently discarded — the
handler terminates normally with the state unchanged and the application
message handler is never invoked for it (but nothing is counted); a frame
that parses is handed to the application handler exactly once. -/
theorem onmessage_parse_guard {α : Type} (parsed : Option α) (d : List α) :
    (parsed = none → UseWebSocket.onmessageStep parsed d = d) ∧
    (∀ x, parsed = some x → UseWebSocket.onmessageStep parsed d = d ++ [x]) := by
  constructor
  · rintro rfl
    rfl
  · rintro x rfl
    rfl

/-- Witness for C7: a malformed frame leaves the delivered list `[7]`
unchanged; a parsed payload `5` is delivered exactly once. -/
theorem onmessage_parse_guard_witness :
    UseWebSocket.onmessageStep (none : Option Nat) [7] = [7] ∧
    UseWebSocket.onmessageStep (some 5) [7] = [7, 5] :=
  ⟨(onmessage_parse_guard none [7]).1 rfl,
   (onmessage_parse_guard (some 5) [7]).2 5 rfl⟩

/-- C8: `sendJson` returns `false` and performs no send whenever there is
no socket or the socket is not `OPEN` (and, keeping no outbound queue, a
payload rejected that way is never transmitted by later calls either);
when the socket is `OPEN` the payload is sent and it returns `true`. -/
theorem sendJson_gating (payload : String) (w : UseWebSocket.Socket) :
    UseWebSocket.sendJson none payload = (false, none) ∧
    (w.readyState ≠ .OPEN →
      UseWebSocket.sendJson (some w) payload = (false, some w)) ∧
    (w.readyState = .OPEN →
      UseWebSocket.sendJson (some w) payload =
        (true, some { w with sent := w.sent ++ [payload] })) ∧
    (w.readyState ≠ .OPEN →
      ∀ ps, UseWebSocket.runSends (some w) ps = (some w, [])) := by
  refine ⟨rfl, ?_, ?_, ?_⟩
  · intro h
    simp [UseWebSocket.sendJson, h]
  · intro h
    simp [UseWebSocket.sendJson, h]
  · intro h ps
    induction ps with
    | nil => rfl
    | cons p ps ih =>
      simp [UseWebSocket.runSends, UseWebSocket.sendJson, h, ih]

/-- Witness for C8: on a `CLOSED` socket a send fails and a whole burst of
sends transmits nothing; on an `OPEN` socket the payload is transmitted. -/
theorem sendJson_gating_witness :
    UseWebSocket.sendJson (some w8Closed) "ping" = (false, some w8Closed) ∧
    UseWebSocket.runSends (some w8Closed) ["a", "b"] = (some w8Closed, []) ∧
    UseWebSocket.sendJson (some w8Open) "ping" =
      (true, some { w8Open with sent := w8Open.sent ++ ["ping"] }) :=
  ⟨(sendJson_gating "ping" w8Closed).2.1 (by decide),
   (sendJson_gating "ping" w8Closed).2.2.2 (by decide) ["a", "b"],
   (sendJson_gating "ping" w8Open).2.2.1 rfl⟩

theorem dormant_step (rm : Nat) (e : UseWebSocket.Event)
    (s : UseWebSocket.State) (h : UseWebSocket.Dormant s) :
    UseWebSocket.Dormant (UseWebSocket.step false rm e s) := by
  obtain ⟨h1, h2, h3, h4, h5⟩ := h
  cases e with
  | serverClose => simpa [UseWebSocket.step, h1] using ⟨h1, h2, h3, h4, h5⟩
  | deliverClose => simpa [UseWebSocket.step, h2] using ⟨h1, h2, h3, h4, h5⟩
  | timerFire =>
    simpa [UseWebSocket.step, h3] using ⟨h1, h2, h3, h4, h5⟩
  | teardown =>
    refine ⟨rfl, ?_, ?_, h4, h5⟩
    · simp [UseWebSocket.step, h1, h2]
    · simp only [UseWebSocket.step]
      cases s.refTimer <;> simp [h3]

theorem dormant_run (rm : Nat) (evs : List UseWebSocket.Event) :
    ∀ s, UseWebSocket.Dormant s →
      UseWebSocket.Dormant (UseWebSocket.runEvents false rm evs s) := by
  induction evs with
  | nil => exact fun s h => h
  | cons e evs ih =>
    intro s h
    exact ih _ (dormant_step rm e s h)

/-- C9: when the hook is opened with no stored bearer token, `connect`
returns before constructing a channel — the state is exactly the empty
one, no error is raised (the model is a total function), and under every
subsequent event sequence the instance stays dormant: no channel is ever
attempted, no reconnection timer is ever pending or scheduled. -/
theorem useWebSocket_no_token_noop (rm : Nat)
    (evs : List UseWebSocket.Event) :
    UseWebSocket.initState false = UseWebSocket.emptyState ∧
    (UseWebSocket.runEvents false rm evs
        (UseWebSocket.initState false)).connectCount = 0 ∧
    (UseWebSocket.runEvents false rm evs
        (UseWebSocket.initState false)).pending = [] ∧
    (UseWebSocket.runEvents false rm evs
        (UseWebSocket.initState false)).socketAlive = false ∧
    (UseWebSocket.runEvents false rm evs
        (UseWebSocket.initState false)).scheduleCount = 0 := by
  have hd : UseWebSocket.Dormant (UseWebSocket.initState false) :=
    ⟨rfl, rfl, rfl, rfl, rfl⟩
  have h := dormant_run rm evs _ hd
  exact ⟨rfl, h.2.2.2.1, h.2.2.1, h.1, h.2.2.2.2⟩

theorem inv_init (rm : Nat) : UseWebSocket.Inv rm (UseWebSocket.initState true) :=
  ⟨Or.inl rfl, fun h => Bool.noConfusion h, fun h => absurd rfl h⟩

theorem inv_step (rm : Nat) (e : UseWebSocket.Event) (s : UseWebSocket.State)
    (h : UseWebSocket.Inv rm s) :
    UseWebSocket.Inv rm (UseWebSocket.step true rm e s) := by
  obtain ⟨hp, hk, hj⟩ := h
  obtain ⟨al, cq, pd, rt, ni, td, sc, cc⟩ := s
  simp only at hp hk hj
  cases e with
  | serverClose =>
    cases al with
    | false => simpa [UseWebSocket.step] using ⟨hp, hk, hj⟩
    | true =>
      have hpe : pd = [] := by
        rcases hp with h | ⟨i, hi, _⟩
        · exact h
        · exact absurd (hj (by simp [hi])).1 (by simp)
      subst hpe
      refine ⟨Or.inl ?_, fun _ => ?_, fun hne => absurd ?_ hne⟩ <;>
        simp [UseWebSocket.step]
  | deliverClose =>
    cases cq with
    | false => simpa [UseWebSocket.step] using ⟨hp, hk, hj⟩
    | true =>
      have hpe : pd = [] := by
        by_cases hne : pd = []
        · exact hne
        · exact absurd (hj hne).2 (by simp)
      have hal : al = false := hk rfl
      subst hpe
      subst hal
      refine ⟨Or.inr ⟨ni, ?_, ?_⟩, ?_, fun _ => ⟨?_, ?_⟩⟩
      · cases rt <;>
          simp [UseWebSocket.step, UseWebSocket.oncloseStep]
      · cases rt <;>
          simp [UseWebSocket.step, UseWebSocket.oncloseStep]
      · intro hq
        simp [UseWebSocket.step, UseWebSocket.oncloseStep] at hq
      · simp [UseWebSocket.step, UseWebSocket.oncloseStep]
      · simp [UseWebSocket.step, UseWebSocket.oncloseStep]
  | timerFire =>
    cases pd with
    | nil => simpa [UseWebSocket.step] using ⟨hp, hk, hj⟩
    | cons hd tl =>
      rcases hp with h | ⟨i, hi, hrt⟩
      · exact absurd h (by simp)
      · injection hi with h1 h2
        subst h1
        subst h2
        obtain ⟨hal, hcq⟩ := hj (by simp)
        subst hal
        subst hcq
        refine ⟨Or.inl ?_, fun hq => absurd hq ?_, fun hne => absurd ?_ hne⟩
        · simp [UseWebSocket.step, UseWebSocket.connect]
        · simp [UseWebSocket.step, UseWebSocket.connect]
        · simp [UseWebSocket.step, UseWebSocket.connect]
  | teardown =>
    have hclr :
        (UseWebSocket.step true rm .teardown
          ⟨al, cq, pd, rt, ni, td, sc, cc⟩).pending = [] := by
      rcases hp with h | ⟨i, hi, hrt⟩
      · subst h
        cases rt <;> simp [UseWebSocket.step]
      · subst hi
        subst hrt
        simp [UseWebSocket.step]
    refine ⟨Or.inl hclr, fun _ => ?_, fun hne => absurd hclr hne⟩
    simp [UseWebSocket.step]

theorem inv_reach (rm : Nat) (s : UseWebSocket.State)
    (h : UseWebSocket.Reach rm s) : UseWebSocket.Inv rm s := by
  induction h with
  | init => exact inv_init rm
  | next e s hs ih => exact inv_step rm e s ih

theorem dead_step (rm : Nat) (e : UseWebSocket.Event)
    (s : UseWebSocket.State) (h : UseWebSocket.Dead s) :
    UseWebSocket.step true rm e s = s := by
  obtain ⟨h1, h2, h3, h4⟩ := h
  obtain ⟨al, cq, pd, rt, ni, td, sc, cc⟩ := s
  simp only at h1 h2 h3 h4
  subst h1
  subst h2
  subst h3
  subst h4
  cases e with
  | serverClose => simp [UseWebSocket.step]
  | deliverClose => simp [UseWebSocket.step]
  | timerFire => simp [UseWebSocket.step]
  | teardown => cases rt <;> simp [UseWebSocket.step]

theorem dead_run (rm : Nat) (evs : List UseWebSocket.Event)
    (s : UseWebSocket.State) (h : UseWebSocket.Dead s) :
    UseWebSocket.runEvents true rm evs s = s := by
  induction evs with
  | nil => rfl
  | cons e evs ih =>
    show UseWebSocket.runEvents true rm evs (UseWebSocket.step true rm e s) = s
    rw [dead_step rm e s h]
    exact ih

theorem deliver_schedules (rm : Nat) (s : UseWebSocket.State)
    (hinv : UseWebSocket.Inv rm s) (hq : s.closeQueued = true) :
    (UseWebSocket.step true rm .deliverClose s).pending = [(s.nextId, rm)] ∧
    (UseWebSocket.step true rm .deliverClose s).scheduleCount =
      s.scheduleCount + 1 := by
  obtain ⟨hp, hk, hj⟩ := hinv
  have hpe : s.pending = [] := by
    by_cases hne : s.pending = []
    · exact hne
    · exact absurd hq (by simp [(hj hne).2])
  constructor
  · simp only [UseWebSocket.step, hq, if_true, UseWebSocket.oncloseStep]
    cases hrt : s.refTimer <;> simp [hpe]
  · simp only [UseWebSocket.step, hq, if_true, UseWebSocket.oncloseStep]

theorem teardown_clears (rm : Nat) (s : UseWebSocket.State)
    (hinv : UseWebSocket.Inv rm s) :
    (UseWebSocket.step true rm .teardown s).pending = [] := by
  obtain ⟨hp, _, _⟩ := hinv
  rcases hp with h | ⟨i, hi, hrt⟩
  · simp only [UseWebSocket.step]
    cases s.refTimer <;> simp [h]
  · simp only [UseWebSocket.step, hrt]
    simp [hi]

theorem teardown_dead (rm : Nat) (s : UseWebSocket.State)
    (hinv : UseWebSocket.Inv rm s) (hne : s.pending ≠ []) :
    UseWebSocket.Dead (UseWebSocket.step true rm .teardown s) := by
  obtain ⟨hal, hcq⟩ := hinv.2.2 hne
  refine ⟨?_, ?_, teardown_clears rm s hinv, ?_⟩ <;>
    simp [UseWebSocket.step, hal, hcq]

/-- C3: on every reachable state of a connected `useWebSocket` instance,
(1) delivering a channel-close event schedules exactly one reconnection
timer, with the configured delay `rm` (default 3000 ms); (2) at most one
reconnection timer is ever pending; (3) teardown (`close()`) cancels the
pending timer; and (4) if teardown happens while the reconnection timer
is pending (before it fires), the instance is inert afterwards: no event
sequence changes the state, so no reconnection is ever scheduled or
attempted. -/
theorem useWebSocket_reconnect_discipline (rm : Nat)
    (s : UseWebSocket.State) (hs : UseWebSocket.Reach rm s) :
    (s.closeQueued = true →
      (UseWebSocket.step true rm .deliverClose s).pending =
          [(s.nextId, rm)] ∧
      (UseWebSocket.step true rm .deliverClose s).scheduleCount =
          s.scheduleCount + 1) ∧
    s.pending.length ≤ 1 ∧
    (UseWebSocket.step true rm .teardown s).pending = [] ∧
    (s.pending ≠ [] →
      ∀ evs, UseWebSocket.runEvents true rm evs
          (UseWebSocket.step true rm .teardown s) =
        UseWebSocket.step true rm .teardown s) := by
  have hinv := inv_reach rm s hs
  refine ⟨fun hq => deliver_schedules rm s hinv hq, ?_,
    teardown_clears rm s hinv, fun hne evs => ?_⟩
  · rcases hinv.1 with h | ⟨i, hi, _⟩
    · simp [h]
    · simp [hi]
  · exact dead_run rm evs _ (teardown_dead rm s hinv hne)

/-- Witness for C3 at the default 3000 ms delay: after the initial connect
and a server-side close, delivering the close event schedules exactly the
timer `(id 0, 3000)`; in that state one timer is pending; tearing down
cancels it and the instance is inert under a further event barrage. -/
theorem useWebSocket_reconnect_discipline_witness :
    (UseWebSocket.step true 3000 .deliverClose w3Closed).pending =
        [(w3Closed.nextId, 3000)] ∧
    (UseWebSocket.step true 3000 .deliverClose w3Closed).scheduleCount =
        w3Closed.scheduleCount + 1 ∧
    w3Timer.pending.length ≤ 1 ∧
    (UseWebSocket.step true 3000 .teardown w3Timer).pending = [] ∧
    UseWebSocket.runEvents true 3000
        [.deliverClose, .timerFire, .serverClose, .teardown]
        (UseWebSocket.step true 3000 .teardown w3Timer) =
      UseWebSocket.step true 3000 .teardown w3Timer := by
  have r1 : UseWebSocket.Reach 3000 w3Closed :=
    UseWebSocket.Reach.next .serverClose _ UseWebSocket.Reach.init
  have r2 : UseWebSocket.Reach 3000 w3Timer :=
    UseWebSocket.Reach.next .deliverClose _ r1
  have h1 := useWebSocket_reconnect_discipline 3000 w3Closed r1
  have h2 := useWebSocket_reconnect_discipline 3000 w3Timer r2
  exact ⟨(h1.1 (by decide)).1, (h1.1 (by decide)).2, h2.2.1, h2.2.2.1,
    h2.2.2.2 (by decide) _⟩

theorem ensureChatVisible_suppressed (t : Int) (sid : Option String)
    (s : ActiveChats.State) (h : t - s.lastChatsRefresh < 500) :
    ActiveChats.ensureChatVisible t sid s = s := by
  unfold ActiveChats.ensureChatVisible
  cases sid with
  | none => rfl
  | some x =>
    by_cases h1 : s.loadingChats = true
    · simp [h1]
    · by_cases h2 : s.chats.any (fun c => c.id == x) = true
      · simp [h1, h2]
      · simp [h1, h2, h]

theorem ensureChatVisible_chats (t : Int) (sid : Option String)
    (s : ActiveChats.State) :
    (ActiveChats.ensureChatVisible t sid s).chats = s.chats := by
  unfold ActiveChats.ensureChatVisible
  cases sid with
  | none => rfl
  | some x =>
    by_cases h1 : s.loadingChats = true
    · simp [h1]
    · by_cases h2 : s.chats.any (fun c => c.id == x) = true
      · simp [h1, h2]
      · by_cases h3 : t - s.lastChatsRefresh < 500
        · simp [h1, h2, h3]
        · simp [h1, h2, h3]

theorem onUnread_cases (t : Int) (u : Option Int) (sid : String)
    (s : ActiveChats.State) :
    ((ActiveChats.onUnreadCountUpdated t (some sid) u s).fetchCount =
        s.fetchCount ∧
      (ActiveChats.onUnreadCountUpdated t (some sid) u s).lastChatsRefresh =
        s.lastChatsRefresh) ∨
    ((ActiveChats.onUnreadCountUpdated t (some sid) u s).fetchCount =
        s.fetchCount + 1 ∧
      (ActiveChats.onUnreadCountUpdated t (some sid) u s).lastChatsRefresh =
        t) := by
  unfold ActiveChats.onUnreadCountUpdated ActiveChats.ensureChatVisible
  by_cases h1 : s.loadingChats = true
  · left
    simp [h1]
  · by_cases h2 : s.chats.any (fun c => c.id == sid) = true
    · left
      simp [h1, h2]
    · by_cases h3 : t - s.lastChatsRefresh < 500
      · left
        simp [h1, h2, h3]
      · right
        simp [h1, h2, h3]

theorem runUnread_frozen (sid : String) (lo : Int) :
    ∀ evs : List (Int × Option Int),
      (∀ e ∈ evs, lo ≤ e.1 ∧ e.1 < lo + 500) →
      ∀ s : ActiveChats.State, lo ≤ s.lastChatsRefresh →
        (ActiveChats.runUnreadEvents sid evs s).fetchCount = s.fetchCount := by
  intro evs
  induction evs with
  | nil =>
    intro _ s _
    rfl
  | cons e evs ih =>
    intro hw s hs
    obtain ⟨t, u⟩ := e
    have hwt := hw (t, u) (List.mem_cons_self _ _)
    have hsup : t - s.lastChatsRefresh < 500 := by
      have h2 := hwt.2
      omega
    show (ActiveChats.runUnreadEvents sid evs
        (ActiveChats.onUnreadCountUpdated t (some sid) u s)).fetchCount =
      s.fetchCount
    have he : ActiveChats.onUnreadCountUpdated t (some sid) u s =
        { s with chats := s.chats.map (fun c =>
            if c.id == sid then { c with unread := u.getD c.unread }
            else c) } := by
      unfold ActiveChats.onUnreadCountUpdated
      dsimp only
      rw [ensureChatVisible_suppressed t (some sid) s hsup]
    rw [he]
    exact ih (fun e hee => hw e (List.mem_cons_of_mem _ hee)) _ hs

theorem runUnread_atMostOne (sid : String) (lo : Int) :
    ∀ evs : List (Int × Option Int),
      (∀ e ∈ evs, lo ≤ e.1 ∧ e.1 < lo + 500) →
      ∀ s : ActiveChats.State,
        (ActiveChats.runUnreadEvents sid evs s).fetchCount ≤
          s.fetchCount + 1 := by
  intro evs
  induction evs with
  | nil =>
    intro _ s
    exact Nat.le_succ _
  | cons e evs ih =>
    intro hw s
    obtain ⟨t, u⟩ := e
    have hwt := hw (t, u) (List.mem_cons_self _ _)
    have hwtail : ∀ e ∈ evs, lo ≤ e.1 ∧ e.1 < lo + 500 :=
      fun e hee => hw e (List.mem_cons_of_mem _ hee)
    show (ActiveChats.runUnreadEvents sid evs
        (ActiveChats.onUnreadCountUpdated t (some sid) u s)).fetchCount ≤
      s.fetchCount + 1
    rcases onUnread_cases t u sid s with ⟨hc, _⟩ | ⟨hc, hl⟩
    · have hle := ih hwtail (ActiveChats.onUnreadCountUpdated t (some sid) u s)
      omega
    · have hfr := runUnread_frozen sid lo evs hwtail
        (ActiveChats.onUnreadCountUpdated t (some sid) u s)
        (by rw [hl]; exact hwt.1)
      omega

/-- C4: given any burst of `unread_count_updated` events referencing the
same session, all arriving within one 500 ms window, the debounced
`ensureChatVisible` guard issues at most one forced `fetchChats` resync
call (regardless of whether the session is known, unknown, or becomes
known mid-burst). -/
theorem unread_resync_debounce (sid : String) (lo : Int)
    (evs : List (Int × Option Int)) (s : ActiveChats.State)
    (hw : ∀ e ∈ evs, lo ≤ e.1 ∧ e.1 < lo + 500) :
    (ActiveChats.runUnreadEvents sid evs s).fetchCount ≤ s.fetchCount + 1 :=
  runUnread_atMostOne sid lo evs hw s

/-- Witness for C4: three `unread_count_updated` events for the unknown
session `s9` at 0 ms, 100 ms and 499 ms cause at most one resync fetch. -/
theorem unread_resync_debounce_witness :
    (ActiveChats.runUnreadEvents "s9" [(0, some 1), (100, none), (499, some 2)]
        w4State).fetchCount ≤ w4State.fetchCount + 1 :=
  unread_resync_debounce "s9" 0 [(0, some 1), (100, none), (499, some 2)]
    w4State (by decide)

theorem statusChanged_removed_chats (now : Int) (sid : String)
    (st ht : Option String) (s : ActiveChats.State)
    (hst : st ≠ some "active") :
    (ActiveChats.onSessionStatusChanged now (some sid) st ht s).chats =
      s.chats.filter (fun c => c.id ≠ sid) := by
  unfold ActiveChats.onSessionStatusChanged
  dsimp only
  rw [if_pos hst]
  by_cases hsel : s.selectedChat.any (fun c => c.id == sid) = true
  · simp [hsel]
  · simp [hsel]

theorem statusChanged_active_chats (now : Int) (sid : String) (h : String)
    (s : ActiveChats.State) :
    (ActiveChats.onSessionStatusChanged now (some sid) (some "active")
        (some h) s).chats =
      s.chats.map (fun c =>
        if c.id == sid then
          { c with status := if h == "agent" then ActiveChats.HandlerStatus.agent
              else ActiveChats.HandlerStatus.ai }
        else c) := by
  unfold ActiveChats.onSessionStatusChanged
  dsimp only
  rw [if_neg (fun hco => hco rfl)]
  simp [ensureChatVisible_chats]

/-- C5: after a `session_status_changed` event whose status does not match
the `ActiveChats` synchronizer's category (`'active'`), the referenced
session is absent from its list; if the status still matches and a
handler type is reported, every session stays in the list at its position
and only the referenced session's handler field is updated in place. -/
theorem session_status_changed_membership (now : Int) (sid : String)
    (st ht : Option String) (s : ActiveChats.State) :
    (st ≠ some "active" →
      ∀ c ∈ (ActiveChats.onSessionStatusChanged now (some sid) st ht s).chats,
        c.id ≠ sid) ∧
    (st = some "active" → ∀ h, ht = some h →
      ((ActiveChats.onSessionStatusChanged now (some sid) st ht s).chats.map
          (fun c => c.id) = s.chats.map (fun c => c.id) ∧
        ∀ c ∈ s.chats,
          (c.id = sid →
            { c with status := if h == "agent" then
                ActiveChats.HandlerStatus.agent
              else ActiveChats.HandlerStatus.ai } ∈
              (ActiveChats.onSessionStatusChanged now (some sid) st ht
                s).chats) ∧
          (c.id ≠ sid →
            c ∈ (ActiveChats.onSessionStatusChanged now (some sid) st ht
              s).chats))) := by
  constructor
  · intro hst c hc
    rw [statusChanged_removed_chats now sid st ht s hst] at hc
    have hd := (List.mem_filter.mp hc).2
    exact of_decide_eq_true hd
  · rintro rfl h rfl
    constructor
    · rw [statusChanged_active_chats now sid h s, List.map_map]
      refine List.map_congr_left ?_
      intro c _
      by_cases hcs : (c.id == sid) = true
      · simp [Function.comp, hcs]
      · simp [Function.comp, hcs]
    · intro c hcm
      constructor
      · intro hcid
        rw [statusChanged_active_chats now sid h s]
        have hmm := List.mem_map_of_mem (fun c =>
          if c.id == sid then
            { c with status := if h == "agent" then
                ActiveChats.HandlerStatus.agent
              else ActiveChats.HandlerStatus.ai }
          else c) hcm
        simpa [hcid] using hmm
      · intro hcid
        rw [statusChanged_active_chats now sid h s]
        have hmm := List.mem_map_of_mem (fun c =>
          if c.id == sid then
            { c with status := if h == "agent" then
                ActiveChats.HandlerStatus.agent
              else ActiveChats.HandlerStatus.ai }
          else c) hcm
        simpa [hcid] using hmm

/-- Witness for C5: with session `s1` visible in the active list, a status
change to `pending` leaves no record with id `s1`, while a status change
to `active` with handler `agent` keeps the session and flips its handler
field to `agent`. -/
theorem session_status_changed_membership_witness :
    (∀ c ∈ (ActiveChats.onSessionStatusChanged 0 (some "s1") (some "pending")
        none w5State).chats, c.id ≠ "s1") ∧
    { w5Session with status := ActiveChats.HandlerStatus.agent } ∈
      (ActiveChats.onSessionStatusChanged 0 (some "s1") (some "active")
        (some "agent") w5State).chats := by
  refine ⟨(session_status_changed_membership 0 "s1" (some "pending") none
    w5State).1 (by decide), ?_⟩
  have h := (session_status_changed_membership 0 "s1" (some "active")
    (some "agent") w5State).2 rfl "agent" rfl
  have hm := (h.2 w5Session (by decide)).1 (by decide)
  simpa using hm

theorem chatEnded_preserved_ws (now : Int) (p : CustomerChat.WsPayload)
    (s : CustomerChat.State) (h : s.chatEnded = true) :
    (CustomerChat.onWsMessage now p s).chatEnded = true := by
  cases p <;> simp [CustomerChat.onWsMessage, h]

theorem handleSend_ended (c : String) (a : Option (List String))
    (s : CustomerChat.State) (h : s.chatEnded = true) :
    CustomerChat.handleSend c a s = (s, none) := by
  unfold CustomerChat.handleSend
  cases hse : s.sessionId with
  | none => rfl
  | some sid => simp [h]

theorem runOps_ended (ops : List CustomerChat.Op) :
    ∀ s : CustomerChat.State, s.chatEnded = true →
      (CustomerChat.runOps ops s).2 = [] := by
  induction ops with
  | nil =>
    intro s _
    rfl
  | cons op ops ih =>
    intro s h
    cases op with
    | ws now p =>
      exact ih _ (chatEnded_preserved_ws now p s h)
    | send c a =>
      simp only [CustomerChat.runOps, handleSend_ended c a s h]
      simpa using ih s h

/-- C6: processing a `session_completed` push sets the terminal
`chatEnded` flag and appends the synthetic closing message
`system-${Date.now()}`; thereafter, under any interleaving of further
pushes and send attempts, no request is ever issued to the server. -/
theorem session_completed_locks (now : Int) (pm : Option String)
    (s : CustomerChat.State)
    (hfresh : ∀ x ∈ s.messages, x.id ≠ "system-" ++ toString now) :
    (CustomerChat.onWsMessage now (.sessionCompleted pm) s).chatEnded =
        true ∧
    (∃ x ∈ (CustomerChat.onWsMessage now (.sessionCompleted pm) s).messages,
      x.id = "system-" ++ toString now ∧ x.sender = .ai) ∧
    ∀ ops, (CustomerChat.runOps ops
      (CustomerChat.onWsMessage now (.sessionCompleted pm) s)).2 = [] := by
  have hend : (CustomerChat.onWsMessage now (.sessionCompleted pm)
      s).chatEnded = true := by
    simp [CustomerChat.onWsMessage]
  refine ⟨hend, ?_, fun ops => runOps_ended ops _ hend⟩
  have hany : s.messages.any
      (fun x => x.id == "system-" ++ toString now) = false := by
    rw [List.any_eq_false]
    intro x hx
    simp only [beq_iff_eq]
    exact hfresh x hx
  have hmem :
      (⟨"system-" ++ toString now, .ai, CustomerChat.closingText pm, now,
        none⟩ : CustomerChat.Message) ∈
      CustomerChat.addMessage
        ⟨"system-" ++ toString now, .ai, CustomerChat.closingText pm, now,
          none⟩ s.messages := by
    unfold CustomerChat.addMessage
    rw [if_neg (by simp [hany])]
    exact (cc_sortMessages_perm _).mem_iff.mpr
      (List.mem_append_right _ (List.mem_singleton.mpr rfl))
  exact ⟨_, hmem, rfl, rfl⟩

/-- Witness for C6: from a fresh customer state, a `session_completed` push
with text `bye` at time 7 appends `system-7`, flips the flag, and a
subsequent send / push / send interleaving issues no request. -/
theorem session_completed_locks_witness :
    (CustomerChat.onWsMessage 7 (.sessionCompleted (some "bye"))
        w6State).chatEnded = true ∧
    (∃ x ∈ (CustomerChat.onWsMessage 7 (.sessionCompleted (some "bye"))
        w6State).messages,
      x.id = "system-" ++ toString (7 : Int) ∧ x.sender = .ai) ∧
    (CustomerChat.runOps
        [.send "hello" none,
          .ws 9 (.newMessage ⟨"m1", "user", "hi", some 8, none⟩),
          .send "again" none]
        (CustomerChat.onWsMessage 7 (.sessionCompleted (some "bye"))
          w6State)).2 = [] := by
  have h := session_completed_locks 7 (some "bye") w6State (by decide)
  exact ⟨h.1, h.2.1, h.2.2 _⟩

/-- C10 counterexample: at the concrete 401 response whose body is not
parseable JSON, `apiCall` rejects at the parse step — before the
`res.status === 401` line runs — so the stored bearer token survives,
refuting the claim that the token is removed whenever the status is 401. -/
theorem apiCall_401_unparsed_keeps_token :
    c10Resp.status = 401 ∧ (Api.apiCall c10Resp c10Store).2 = c10Store ∧
    c10Store.token = some "tok" :=
  ⟨rfl, rfl, rfl⟩

/-- C10 (amended): `apiCall` rejects exactly when the body is unparseable
or the parsed envelope has `success = false`, and resolves only with the
parsed envelope, which then has `success = true`; whenever the status is
401 and the body did parse, the stored token is removed before the
success check (it is gone in rejection and resolution results alike). -/
theorem apiCall_envelope_contract {T : Type} (res : Api.Response T)
    (store : Api.Store) :
    ((∃ e, (Api.apiCall res store).1 = Except.error e) ↔
      res.body = none ∨ ∃ p, res.body = some p ∧ p.success = false) ∧
    (∀ env, (Api.apiCall res store).1 = Except.ok env →
      env.success = true ∧ res.body = some env) ∧
    (∀ p, res.body = some p → res.status = 401 →
      (Api.apiCall res store).2.token = none) := by
  obtain ⟨st, body⟩ := res
  cases body with
  | none =>
    refine ⟨?_, ?_, ?_⟩
    · simp [Api.apiCall]
    · intro env h
      simp [Api.apiCall] at h
    · intro p hp
      simp at hp
  | some p =>
    by_cases hs : p.success = false
    · refine ⟨?_, ?_, ?_⟩
      · simp only [Api.apiCall, hs, if_true]
        constructor
        · intro _
          exact Or.inr ⟨p, rfl, hs⟩
        · intro _
          exact ⟨_, rfl⟩
      · intro env h
        simp [Api.apiCall, hs] at h
      · intro q hq h401
        injection hq with hq
        subst hq
        subst h401
        simp [Api.apiCall, hs]
    · have hs' : p.success = true := by
        cases hsv : p.success
        · exact absurd hsv hs
        · rfl
      refine ⟨?_, ?_, ?_⟩
      · simp only [Api.apiCall, hs', if_false]
        constructor
        · rintro ⟨e, he⟩
          simp at he
        · rintro (h | ⟨q, hq, hqs⟩)
          · exact absurd h (by simp)
          · injection hq with hq
            subst hq
            exact absurd hqs (by simp [hs'])
      · intro env h
        simp only [Api.apiCall, hs'] at h
        have : p = env := by
          by_cases h401 : (st == 401) = true <;> simp [h401] at h <;>
            exact h
        subst this
        exact ⟨hs', rfl⟩
      · intro q hq h401
        injection hq with hq
        subst hq
        subst h401
        simp [Api.apiCall, hs']

/-- Witness for C10 at concrete inputs: a parsed 401 failure envelope
rejects and clears the token; a parsed 200 success envelope resolves with
`success = true`. -/
theorem apiCall_envelope_contract_witness :
    (∃ e, (Api.apiCall w10Resp c10Store).1 = Except.error e) ∧
    (Api.apiCall w10Resp c10Store).2.token = none ∧
    ((⟨true, none, some 5⟩ : Api.ApiEnvelope Nat).success = true ∧
      w10OkResp.body = some ⟨true, none, some 5⟩) := by
  have h1 := apiCall_envelope_contract w10Resp c10Store
  have h2 := apiCall_envelope_contract w10OkResp c10Store
  exact ⟨h1.1.mpr (Or.inr ⟨⟨false, some "expired", none⟩, rfl, rfl⟩),
    h1.2.2 ⟨false, some "expired", none⟩ rfl rfl,
    h2.2.1 ⟨true, none, some 5⟩ rfl⟩

end ChatCore
